import Mathlib

/-!
Verification development for the map-of-anime similarity / community /
layout pipeline.  The JavaScript sources are shallowly embedded: JS numbers
become `ℚ` (tag ranks, which the data source delivers as integer
percentages, become `ℕ`), fallible or NaN-producing arithmetic becomes
`Option`, and the ambient random number generator becomes an explicit
stream `ℕ → ℚ` of draws.
-/

/-- A ranked tag as delivered by the metadata source
(`tags { name rank isMediaSpoiler }`). -/
structure Tag where
  name : String
  rank : ℕ
  isMediaSpoiler : Bool
deriving DecidableEq

/-- Title variants (`title { romaji english native }`). -/
structure Title where
  romaji : Option String
  english : Option String
  native : Option String
deriving DecidableEq

/-- An item of the metadata pipeline.  `studios` stands for
`studios.nodes.map(s => s.id)`, `staff` for `staff.edges.map(s => s.node.id)`
and `relations` for `relations.edges.map(r => r.node.id)`, the exact id
lists the similarity code extracts; a missing optional collection is the
empty list, exactly what the `|| []` fallbacks produce. -/
structure Anime where
  id : ℤ
  title : Title
  genres : List String
  tags : List Tag
  studios : List ℤ
  staff : List ℤ
  format : Option String
  seasonYear : Option ℤ
  relations : List ℤ
  popularity : ℤ
  averageScore : Option ℤ
deriving DecidableEq

/-- `jaccardSimilarity` from compute-similarity-metadata.js:
`intersection = setA.filter(x => setB.includes(x))`,
`union = new Set([...setA, ...setB])`, returning
`intersection.length / union.size` and `0` when both inputs are empty. -/
def jaccardSimilarity {α : Type} [DecidableEq α] (setA setB : List α) : ℚ :=
  if setA = [] ∧ setB = [] then 0
  else
    let intersection := setA.filter (fun x => decide (x ∈ setB))
    let union := (setA ++ setB).dedup
    (intersection.length : ℚ) / (union.length : ℚ)

/-- The rank a tag list associates to a name: `new Map(tags.map(t =>
[t.name, t.rank]))` keeps the last pair for a duplicated name, and
`map.get(name) || 0` yields `0` for an absent name. -/
def tagRank (tags : List Tag) (nm : String) : ℕ :=
  match tags.reverse.find? (fun t => decide (t.name = nm)) with
  | some t => t.rank
  | none => 0

/-- The distinct tag names of both sides
(`new Set([...tagMapA.keys(), ...tagMapB.keys()])`). -/
def allTagNames (tagsA tagsB : List Tag) : List String :=
  ((tagsA ++ tagsB).map (fun t => t.name)).dedup

/-- `tagSimilarity`: for every tag name of either side, `max(rankA,rankB)`
accumulates into a total sum, `min(rankA,rankB)` into a match sum when both
ranks are positive; the result is `match/total`, or `0` when the total is
not positive. -/
def tagSimilarity (tagsA tagsB : List Tag) : ℚ :=
  let names := allTagNames tagsA tagsB
  let totalWeight := (names.map (fun nm => max (tagRank tagsA nm) (tagRank tagsB nm))).sum
  let matchWeight := (names.map (fun nm =>
    if 0 < tagRank tagsA nm ∧ 0 < tagRank tagsB nm
    then min (tagRank tagsA nm) (tagRank tagsB nm) else 0)).sum
  if 0 < totalWeight then (matchWeight : ℚ) / (totalWeight : ℚ) else 0

/-- Factor 1 of `computeAnimeSimilarity`: genre Jaccard, weight 3.0,
applicable when both genre lists are non-empty.  Each factor is rendered as
the pair (contribution to `similarity`, contribution to `weights`). -/
def genreFactor (a b : Anime) : ℚ × ℚ :=
  if a.genres ≠ [] ∧ b.genres ≠ [] then (jaccardSimilarity a.genres b.genres * 3, 3)
  else (0, 0)

/-- The non-spoiler tags (`tags.filter(t => !t.isMediaSpoiler)`). -/
def noSpoilers (tags : List Tag) : List Tag :=
  tags.filter (fun t => !t.isMediaSpoiler)

/-- Factor 2: rank-weighted tag similarity, weight 2.5, applicable when both
tag lists are non-empty and stay non-empty after the spoiler filter. -/
def tagFactor (a b : Anime) : ℚ × ℚ :=
  if a.tags ≠ [] ∧ b.tags ≠ [] then
    let tagsA := noSpoilers a.tags
    let tagsB := noSpoilers b.tags
    if tagsA ≠ [] ∧ tagsB ≠ [] then (tagSimilarity tagsA tagsB * (5/2), 5/2) else (0, 0)
  else (0, 0)

/-- Factor 3: studio-id Jaccard, weight 1.5. -/
def studioFactor (a b : Anime) : ℚ × ℚ :=
  if a.studios ≠ [] ∧ b.studios ≠ [] then (jaccardSimilarity a.studios b.studios * (3/2), 3/2)
  else (0, 0)

/-- Factor 4: staff-id Jaccard, weight 1.0. -/
def staffFactor (a b : Anime) : ℚ × ℚ :=
  if a.staff ≠ [] ∧ b.staff ≠ [] then (jaccardSimilarity a.staff b.staff * 1, 1)
  else (0, 0)

/-- Factor 5: exact format match, weight 0.5.  `animeA.format &&
animeB.format && animeA.format === animeB.format`: both present (a JS empty
string is falsy) and equal. -/
def formatFactor (a b : Anime) : ℚ × ℚ :=
  match a.format, b.format with
  | some fa, some fb => if fa ≠ "" ∧ fb ≠ "" ∧ fa = fb then (1/2, 1/2) else (0, 0)
  | _, _ => (0, 0)

/-- Factor 6: season proximity, weight 0.3.  Only when both years are
present AND the absolute difference is at most 2 does the code add
`(3 - yearDiff)/3 * 0.3` to the score and `0.3` to the weights. -/
def seasonFactor (a b : Anime) : ℚ × ℚ :=
  match a.seasonYear, b.seasonYear with
  | some ya, some yb =>
    if |ya - yb| ≤ 2 then ((((3 - |ya - yb| : ℤ)) : ℚ) / 3 * (3/10), 3/10)
    else (0, 0)
  | _, _ => (0, 0)

/-- Factor 7: direct relation, weight 2.0 with fixed score 1.0, applicable
when B's id appears in A's related-id list (only A's list is consulted). -/
def relationFactor (a b : Anime) : ℚ × ℚ :=
  if b.id ∈ a.relations then (2, 2) else (0, 0)

/-- `computeAnimeSimilarity`: the sequential `similarity += factor * w;
weights += w` accumulation is rendered as the sum of the seven factor
contributions; the result is `similarity / weights` when `weights > 0`,
else `0`. -/
def computeAnimeSimilarity (a b : Anime) : ℚ :=
  let fs := [genreFactor a b, tagFactor a b, studioFactor a b, staffFactor a b,
             formatFactor a b, seasonFactor a b, relationFactor a b]
  let similarity := (fs.map Prod.fst).sum
  let weights := (fs.map Prod.snd).sum
  if 0 < weights then similarity / weights else 0

/-- An edge record `{source, target, weight}` pushed by the pair loop. -/
structure EdgeRec where
  source : ℤ
  target : ℤ
  weight : ℚ
deriving DecidableEq

/-- `computeSimilarities`: the double loop over `i < j` emits an edge for
every ordered pair whose similarity reaches the threshold (the source keeps
`MIN_SIMILARITY` as a constant 0.25; the threshold is the `minSim`
parameter here so the claims can speak about raising it). -/
def computeSimilarities (animeList : List Anime) (minSim : ℚ) : List EdgeRec :=
  match animeList with
  | [] => []
  | a :: rest =>
    (rest.filterMap (fun b =>
      if minSim ≤ computeAnimeSimilarity a b
      then some { source := a.id, target := b.id, weight := computeAnimeSimilarity a b }
      else none)) ++ computeSimilarities rest minSim

/-- A node of the processed graph as built by `buildGraph` (title picked by
`romaji || english || native`). -/
structure GraphNode where
  id : ℤ
  title : Option String
  englishTitle : Option String
  genres : List String
  popularity : ℤ
  averageScore : Option ℤ
  format : Option String
  seasonYear : Option ℤ
deriving DecidableEq

/-- JS `||` on optional strings: the empty string is falsy. -/
def jsOrStr : Option String → Option String → Option String
  | some s, b => if s = "" then b else some s
  | none, b => b

/-- The node record `buildGraph` creates from an item. -/
def toGraphNode (a : Anime) : GraphNode :=
  { id := a.id
    title := jsOrStr a.title.romaji (jsOrStr a.title.english a.title.native)
    englishTitle := a.title.english
    genres := a.genres
    popularity := a.popularity
    averageScore := a.averageScore
    format := a.format
    seasonYear := a.seasonYear }

/-- `buildGraph` (metadata mode): map the items to node records, collect
the ids appearing in any edge, and keep only the nodes whose id is such an
endpoint. -/
def buildGraph (animeList : List Anime) (edges : List EdgeRec) :
    List GraphNode × List EdgeRec :=
  let nodes := animeList.map toGraphNode
  let connectedNodes := nodes.filter (fun n =>
    edges.any (fun e => e.source = n.id || e.target = n.id))
  (connectedNodes, edges)

/-- The fixed ordered list of primary genres of `detectCommunities`
(metadata mode); the code assigns community ids 0, 1, 2, … in this order,
so a genre's community id is its index in this list. -/
def primaryGenres : List String :=
  ["Action", "Adventure", "Comedy", "Drama", "Fantasy",
   "Horror", "Mystery", "Psychological", "Romance", "Sci-Fi",
   "Slice of Life", "Sports", "Supernatural", "Thriller", "Mecha"]

/-- The default ("Other") community id, assigned after the fifteen primary
genres. -/
def defaultCommunityId : ℕ := primaryGenres.length

/-- The community assignment of `detectCommunities` (metadata mode) for one
item: walk the item's own genre list in order and take the community of the
first genre that is a primary genre; an item with no match (or no genres)
falls into the default community. -/
def assignCommunity (genres : List String) : ℕ :=
  match genres.find? (fun g => decide (g ∈ primaryGenres)) with
  | some g => primaryGenres.indexOf g
  | none => defaultCommunityId

/-- Modelled from the spec: "each item maps to the first genre (in a fixed,
ordered priority list of canonical genres) it possesses" read as walking the
PRIORITY list in order and taking the first of its genres the item
possesses.  Kept for comparison with `assignCommunity`, which walks the
item's own genre list. -/
def assignCommunityPriorityOrder (genres : List String) : ℕ :=
  match primaryGenres.find? (fun g => decide (g ∈ genres)) with
  | some g => primaryGenres.indexOf g
  | none => defaultCommunityId

/-- An undirected weighted edge of the label-propagation graph. -/
structure LPEdge where
  source : ℤ
  target : ℤ
  weight : ℚ
deriving DecidableEq

/-- The adjacency list of one node: every edge pushes `{target, weight}`
onto the source's list and `{source, weight}` onto the target's list, in
edge order. -/
def adjEntries (n : ℤ) (edges : List LPEdge) : List (ℤ × ℚ) :=
  edges.flatMap (fun e =>
    (if e.source = n then [(e.target, e.weight)] else []) ++
    (if e.target = n then [(e.source, e.weight)] else []))

/-- Add a neighbour's weight to its community's running total, preserving
first-insertion order (the JS `Map` iterates in insertion order). -/
def insertWeight (acc : List (ℤ × ℚ)) (c : ℤ) (w : ℚ) : List (ℤ × ℚ) :=
  if acc.any (fun p => p.1 = c) then
    acc.map (fun p => if p.1 = c then (p.1, p.2 + w) else p)
  else acc ++ [(c, w)]

/-- `communityWeights`: total incident edge weight per neighbour community,
as the list of map entries in insertion order. -/
def communityWeights (labels : ℤ → ℤ) (neighbors : List (ℤ × ℚ)) :
    List (ℤ × ℚ) :=
  neighbors.foldl (fun acc nb => insertWeight acc (labels nb.1) nb.2) []

/-- The best-community scan: starting from the node's current label with
weight 0, each map entry replaces the running best exactly when its weight
is strictly greater. -/
def pickBest (cur : ℤ) (entries : List (ℤ × ℚ)) : ℤ :=
  (entries.foldl (fun best e => if best.2 < e.2 then e else best) (cur, 0)).1

/-- One full pass of label propagation over the node list, updating the
label map in place (later nodes see earlier nodes' new labels) and tracking
whether any label changed. -/
def lpPass (adj : ℤ → List (ℤ × ℚ)) : List ℤ → (ℤ → ℤ) → Bool → ((ℤ → ℤ) × Bool)
  | [], labels, changed => (labels, changed)
  | n :: rest, labels, changed =>
    let neighbors := adj n
    if neighbors = [] then lpPass adj rest labels changed
    else
      let best := pickBest (labels n) (communityWeights labels neighbors)
      if best = labels n then lpPass adj rest labels changed
      else lpPass adj rest (fun m => if m = n then best else labels m) true

/-- The `while (changed && iterations < maxIterations)` loop: run passes
until one reports no change, with the remaining iteration budget as fuel. -/
def lpLoop (adj : ℤ → List (ℤ × ℚ)) (nodes : List ℤ) : ℕ → (ℤ → ℤ) → (ℤ → ℤ)
  | 0, labels => labels
  | fuel + 1, labels =>
    let pass := lpPass adj nodes labels false
    if pass.2 then lpLoop adj nodes fuel pass.1 else pass.1

/-- `detectCommunities` (label-propagation variant): every node starts in
its own community and at most 10 passes run, stopping after the first pass
with no change; the result maps each node id to its final label. -/
def labelPropagation (nodes : List ℤ) (edges : List LPEdge) : ℤ → ℤ :=
  lpLoop (fun n => adjEntries n edges) nodes 10 (fun n => n)

/-- A recommendation entry: `edge.node.mediaRecommendation.id` and
`edge.node.rating || 0`. -/
structure RecEntry where
  recId : ℤ
  rating : ℤ
deriving DecidableEq

/-- An item of the recommendation pipeline. -/
structure RecAnime where
  id : ℤ
  recommendations : List RecEntry
deriving DecidableEq

/-- Undirected edge lookup of the recommendation graph: `graph.hasEdge(a, b)`
matches either orientation. -/
def hasEdge (es : List EdgeRec) (a b : ℤ) : Bool :=
  es.any (fun e => (e.source = a ∧ e.target = b) ∨ (e.source = b ∧ e.target = a))

/-- Recommendation edge weight: `Math.max(1, rating / 100)`. -/
def recWeight (rating : ℤ) : ℚ := max 1 ((rating : ℚ) / 100)

/-- Insert one recommendation edge: a fresh pair is appended; a duplicate
pair keeps the larger weight. -/
def addRecEdge (es : List EdgeRec) (a b : ℤ) (w : ℚ) : List EdgeRec :=
  if hasEdge es a b then
    es.map (fun e =>
      if (e.source = a ∧ e.target = b) ∨ (e.source = b ∧ e.target = a) then
        (if e.weight < w then { e with weight := w } else e)
      else e)
  else es ++ [{ source := a, target := b, weight := w }]

/-- The edge set of `buildRecommendationGraph`: for each item in order, each
recommendation with a present id (`!recAnime.id` skips a missing/zero id), a
rating not below `MIN_RATING = 0`, and a recommended id present in the item
list contributes an edge. -/
def buildRecEdges (l : List RecAnime) : List EdgeRec :=
  l.foldl (fun es a =>
    a.recommendations.foldl (fun es r =>
      if r.recId ≠ 0 ∧ 0 ≤ r.rating ∧ l.any (fun x => x.id = r.recId) then
        addRecEdge es a.id r.recId (recWeight r.rating)
      else es) es) []

/-- `buildRecommendationGraph`: all items become nodes, recommendation
edges are added, and isolated nodes (degree 0, i.e. no incident edge) are
removed. -/
def buildRecommendationGraph (l : List RecAnime) : List ℤ × List EdgeRec :=
  let edges := buildRecEdges l
  let nodes := (l.map (fun a => a.id)).filter (fun n =>
    edges.any (fun e => e.source = n || e.target = n))
  (nodes, edges)

/-- A layout simulation particle. -/
structure LayoutNode where
  id : ℤ
  clusterId : ℤ
  tier : ℕ
  x : ℚ
  y : ℚ
  hue : ℚ
deriving DecidableEq

/-- The children one parent produces in `subdivideNodes`.  The ambient
`Math.random()` generator is modelled as an explicit stream `rand : ℕ → ℚ`
of draws together with the index `ctr` of the next draw (the JS code has no
seed input; the stream stands for whatever the global generator produces).
`subgroups = min(2^(tier+1), ceil(members/50))` children seed near the
parent with jitter `(random() - 0.5) * 50` per axis and inherit its hue. -/
def subdivideChildren (membersOf : ℤ → ℕ) (tier : ℕ) (parent : LayoutNode)
    (rand : ℕ → ℚ) (ctr : ℕ) : List LayoutNode × ℕ :=
  let nodesPerCommunity := 2 ^ (tier + 1)
  let members := membersOf parent.clusterId
  let subgroups := min nodesPerCommunity ((members + 49) / 50)
  ((List.range subgroups).map (fun i =>
    let k : ℕ := ctr + 2 * i
    { id := parent.clusterId * 1000 + (i : ℤ)
      clusterId := parent.clusterId
      tier := tier
      x := parent.x + (rand k - 1/2) * 50
      y := parent.y + (rand (k + 1) - 1/2) * 50
      hue := parent.hue }), ctr + 2 * subgroups)

/-- `subdivideNodes`: every old node subdivides in order, consuming the
random stream left to right. -/
def subdivideNodes (membersOf : ℤ → ℕ) (tier : ℕ) (oldNodes : List LayoutNode)
    (rand : ℕ → ℚ) : List LayoutNode :=
  (oldNodes.foldl (fun acc parent =>
    let next := subdivideChildren membersOf tier parent rand acc.2
    (acc.1 ++ next.1, next.2)) (([] : List LayoutNode), 0)).1

/-- A node with final simulated coordinates, as consumed by the
normalization step of the layout script's `main`. -/
structure PositionedNode where
  id : ℤ
  x : ℚ
  y : ℚ
  hue : ℚ
deriving DecidableEq

/-- The bounding box of the final positions. -/
structure BBox where
  minX : ℚ
  maxX : ℚ
  minY : ℚ
  maxY : ℚ
deriving DecidableEq

/-- The `min/max` scan of the layout script's `main` (started from
`±Infinity`, hence `none` for an empty node list). -/
def bbox (ns : List PositionedNode) : Option BBox :=
  match ns with
  | [] => none
  | n :: rest => some (rest.foldl
      (fun bb p =>
        { minX := min bb.minX p.x, maxX := max bb.maxX p.x
          minY := min bb.minY p.y, maxY := max bb.maxY p.y })
      { minX := n.x, maxX := n.x, minY := n.y, maxY := n.y })

/-- `Math.round`: round half toward positive infinity. -/
def jsRound (q : ℚ) : ℤ := ⌊q + 1/2⌋

/-- One serialized coordinate `Math.round(((v - minV) / range) * scale)`.
When the bounding-box range is zero the JS quotient is `0/0 = NaN` (every
`v` equals `minV`), `Math.round` keeps it `NaN`, and `JSON.stringify` emits
`null`; the `none` branch models exactly that non-finite outcome. -/
def serializeCoord (v minV range scale : ℚ) : Option ℤ :=
  if range = 0 then none else some (jsRound ((v - minV) / range * scale))

/-- The world scale of the output document. -/
def worldScale : ℚ := 20000

/-- The serialized `x`/`y` fields of every node record emitted by the
layout script's `main`: bounding box over all final positions, then each
axis rescaled by its range. -/
def serializeCoords (ns : List PositionedNode) : List (Option ℤ × Option ℤ) :=
  match bbox ns with
  | none => []
  | some bb =>
    let rangeX := bb.maxX - bb.minX
    let rangeY := bb.maxY - bb.minY
    ns.map (fun n =>
      (serializeCoord n.x bb.minX rangeX worldScale,
       serializeCoord n.y bb.minY rangeY worldScale))

/-! ## Helper lemmas about the similarity factors -/

lemma toFinset_dedup_list {α : Type} [DecidableEq α] (l : List α) :
    l.dedup.toFinset = l.toFinset :=
  List.toFinset.ext (fun _ => List.mem_dedup)

lemma length_filter_mem_eq_card_inter {α : Type} [DecidableEq α]
    (A B : List α) (hA : A.Nodup) :
    (A.filter (fun x => decide (x ∈ B))).length = (A.toFinset ∩ B.toFinset).card := by
  rw [← List.toFinset_card_of_nodup (hA.filter _), List.toFinset_filter]
  congr 1
  ext x
  simp [Finset.mem_filter, Finset.mem_inter, List.mem_toFinset]

lemma length_dedup_append {α : Type} [DecidableEq α] (A B : List α) :
    ((A ++ B).dedup).length = (A.toFinset ∪ B.toFinset).card := by
  rw [← List.toFinset_card_of_nodup (List.nodup_dedup _), toFinset_dedup_list,
    List.toFinset_append]

lemma jaccard_nonneg {α : Type} [DecidableEq α] (A B : List α) :
    0 ≤ jaccardSimilarity A B := by
  simp only [jaccardSimilarity]
  split
  · exact le_refl 0
  · exact div_nonneg (by positivity) (by positivity)

lemma jaccard_le_one {α : Type} [DecidableEq α] (A B : List α) (hA : A.Nodup) :
    jaccardSimilarity A B ≤ 1 := by
  simp only [jaccardSimilarity]
  split
  · norm_num
  · rename_i h
    have hne : A ++ B ≠ [] := by
      intro hc
      rcases List.append_eq_nil.mp hc with ⟨h1, h2⟩
      exact h ⟨h1, h2⟩
    have hdedup : (A ++ B).dedup ≠ [] := by
      intro hc
      exact hne ((List.dedup_eq_nil _).mp hc)
    have hpos : 0 < (((A ++ B).dedup.length : ℚ)) := by
      have := List.length_pos.mpr hdedup
      exact_mod_cast this
    rw [div_le_one hpos]
    have hcard : (A.filter (fun x => decide (x ∈ B))).length ≤ ((A ++ B).dedup).length := by
      rw [length_filter_mem_eq_card_inter A B hA, length_dedup_append]
      exact Finset.card_le_card Finset.inter_subset_union
    exact_mod_cast hcard

lemma jaccard_comm {α : Type} [DecidableEq α] (A B : List α)
    (hA : A.Nodup) (hB : B.Nodup) :
    jaccardSimilarity A B = jaccardSimilarity B A := by
  simp only [jaccardSimilarity]
  by_cases h : A = [] ∧ B = []
  · rw [if_pos h, if_pos ⟨h.2, h.1⟩]
  · rw [if_neg h, if_neg (fun hc => h ⟨hc.2, hc.1⟩)]
    rw [length_filter_mem_eq_card_inter A B hA, length_filter_mem_eq_card_inter B A hB,
      length_dedup_append, length_dedup_append, Finset.inter_comm, Finset.union_comm]

lemma tagSimilarity_nonneg (tagsA tagsB : List Tag) : 0 ≤ tagSimilarity tagsA tagsB := by
  simp only [tagSimilarity]
  split
  · exact div_nonneg (by positivity) (by positivity)
  · exact le_refl 0

lemma tagSimilarity_le_one (tagsA tagsB : List Tag) : tagSimilarity tagsA tagsB ≤ 1 := by
  simp only [tagSimilarity]
  split
  · rename_i h
    rw [div_le_one (by exact_mod_cast h)]
    have hsum : ((allTagNames tagsA tagsB).map (fun nm =>
        if 0 < tagRank tagsA nm ∧ 0 < tagRank tagsB nm
        then min (tagRank tagsA nm) (tagRank tagsB nm) else 0)).sum ≤
        ((allTagNames tagsA tagsB).map (fun nm =>
        max (tagRank tagsA nm) (tagRank tagsB nm))).sum := by
      apply List.sum_le_sum
      intro nm _
      split
      · exact le_trans (min_le_left _ _) (le_max_left _ _)
      · exact Nat.zero_le _
    exact_mod_cast hsum
  · norm_num

lemma allTagNames_perm (tagsA tagsB : List Tag) :
    (allTagNames tagsA tagsB).Perm (allTagNames tagsB tagsA) := by
  apply List.perm_of_nodup_nodup_toFinset_eq (List.nodup_dedup _) (List.nodup_dedup _)
  show ((tagsA ++ tagsB).map (fun t => t.name)).dedup.toFinset =
    ((tagsB ++ tagsA).map (fun t => t.name)).dedup.toFinset
  rw [toFinset_dedup_list, toFinset_dedup_list, List.map_append, List.map_append,
    List.toFinset_append, List.toFinset_append, Finset.union_comm]

lemma tagSimilarity_comm (tagsA tagsB : List Tag) :
    tagSimilarity tagsA tagsB = tagSimilarity tagsB tagsA := by
  simp only [tagSimilarity]
  have htotal : ((allTagNames tagsA tagsB).map (fun nm =>
      max (tagRank tagsA nm) (tagRank tagsB nm))).sum =
      ((allTagNames tagsB tagsA).map (fun nm =>
      max (tagRank tagsB nm) (tagRank tagsA nm))).sum := by
    rw [List.Perm.sum_eq (List.Perm.map _ (allTagNames_perm tagsA tagsB))]
    congr 1
    apply List.map_congr_left
    intro nm _
    exact max_comm _ _
  have hmatch : ((allTagNames tagsA tagsB).map (fun nm =>
      if 0 < tagRank tagsA nm ∧ 0 < tagRank tagsB nm
      then min (tagRank tagsA nm) (tagRank tagsB nm) else 0)).sum =
      ((allTagNames tagsB tagsA).map (fun nm =>
      if 0 < tagRank tagsB nm ∧ 0 < tagRank tagsA nm
      then min (tagRank tagsB nm) (tagRank tagsA nm) else 0)).sum := by
    rw [List.Perm.sum_eq (List.Perm.map _ (allTagNames_perm tagsA tagsB))]
    congr 1
    apply List.map_congr_left
    intro nm _
    by_cases hc : 0 < tagRank tagsA nm ∧ 0 < tagRank tagsB nm
    · rw [if_pos hc, if_pos ⟨hc.2, hc.1⟩, min_comm]
    · rw [if_neg hc, if_neg (fun hx => hc ⟨hx.2, hx.1⟩)]
  rw [htotal, hmatch]

lemma genreFactor_fst_le_snd (a b : Anime) (hA : a.genres.Nodup) :
    (genreFactor a b).1 ≤ (genreFactor a b).2 := by
  simp only [genreFactor]
  split
  · dsimp only
    have h1 := jaccard_le_one a.genres b.genres hA
    linarith
  · exact le_refl _

lemma tagFactor_fst_le_snd (a b : Anime) :
    (tagFactor a b).1 ≤ (tagFactor a b).2 := by
  simp only [tagFactor]
  split
  · split
    · dsimp only
      have h1 := tagSimilarity_le_one (noSpoilers a.tags) (noSpoilers b.tags)
      linarith
    · exact le_refl _
  · exact le_refl _

lemma studioFactor_fst_le_snd (a b : Anime) (hA : a.studios.Nodup) :
    (studioFactor a b).1 ≤ (studioFactor a b).2 := by
  simp only [studioFactor]
  split
  · dsimp only
    have h1 := jaccard_le_one a.studios b.studios hA
    linarith
  · exact le_refl _

lemma staffFactor_fst_le_snd (a b : Anime) (hA : a.staff.Nodup) :
    (staffFactor a b).1 ≤ (staffFactor a b).2 := by
  simp only [staffFactor]
  split
  · dsimp only
    have h1 := jaccard_le_one a.staff b.staff hA
    linarith
  · exact le_refl _

lemma formatFactor_fst_le_snd (a b : Anime) :
    (formatFactor a b).1 ≤ (formatFactor a b).2 := by
  unfold formatFactor
  rcases a.format with _ | fa <;> rcases b.format with _ | fb <;> dsimp only
  · exact le_refl _
  · exact le_refl _
  · exact le_refl _
  · split <;> exact le_refl _

lemma seasonFactor_fst_le_snd (a b : Anime) :
    (seasonFactor a b).1 ≤ (seasonFactor a b).2 := by
  unfold seasonFactor
  rcases a.seasonYear with _ | ya <;> rcases b.seasonYear with _ | yb <;> dsimp only
  · exact le_refl _
  · exact le_refl _
  · exact le_refl _
  · split
    · dsimp only
      have hd : (0:ℤ) ≤ |ya - yb| := abs_nonneg _
      have hd2 : (0:ℚ) ≤ ((|ya - yb| : ℤ) : ℚ) := by exact_mod_cast hd
      push_cast at hd2 ⊢
      linarith
    · exact le_refl _

lemma relationFactor_fst_le_snd (a b : Anime) :
    (relationFactor a b).1 ≤ (relationFactor a b).2 := by
  unfold relationFactor
  split <;> norm_num

/-- Duplicate-freeness of an item's attribute collections (the spec's data
model calls them sets). -/
def NodupAttrs (a : Anime) : Prop :=
  a.genres.Nodup ∧ (a.tags.map (fun t => t.name)).Nodup ∧
    a.studios.Nodup ∧ a.staff.Nodup

instance (a : Anime) : Decidable (NodupAttrs a) := by
  unfold NodupAttrs
  infer_instance

lemma computeAnimeSimilarity_le_one (a b : Anime)
    (ha : NodupAttrs a) (hb : NodupAttrs b) :
    computeAnimeSimilarity a b ≤ 1 := by
  simp only [computeAnimeSimilarity, List.map_cons, List.map_nil, List.sum_cons,
    List.sum_nil]
  split
  · rename_i hW
    rw [div_le_one hW]
    have h1 := genreFactor_fst_le_snd a b ha.1
    have h2 := tagFactor_fst_le_snd a b
    have h3 := studioFactor_fst_le_snd a b ha.2.2.1
    have h4 := staffFactor_fst_le_snd a b ha.2.2.2
    have h5 := formatFactor_fst_le_snd a b
    have h6 := seasonFactor_fst_le_snd a b
    have h7 := relationFactor_fst_le_snd a b
    linarith
  · norm_num

lemma genreFactor_comm (a b : Anime) (hA : a.genres.Nodup) (hB : b.genres.Nodup) :
    genreFactor a b = genreFactor b a := by
  simp only [genreFactor]
  by_cases h : a.genres ≠ [] ∧ b.genres ≠ []
  · rw [if_pos h, if_pos ⟨h.2, h.1⟩, jaccard_comm _ _ hA hB]
  · rw [if_neg h, if_neg (fun hx => h ⟨hx.2, hx.1⟩)]

lemma tagFactor_comm (a b : Anime) : tagFactor a b = tagFactor b a := by
  simp only [tagFactor]
  by_cases h : a.tags ≠ [] ∧ b.tags ≠ []
  · rw [if_pos h]
    conv_rhs => rw [if_pos (And.intro h.2 h.1)]
    by_cases h2 : noSpoilers a.tags ≠ [] ∧ noSpoilers b.tags ≠ []
    · rw [if_pos h2]
      conv_rhs => rw [if_pos (And.intro h2.2 h2.1)]
      rw [tagSimilarity_comm]
    · rw [if_neg h2]
      conv_rhs => rw [if_neg (fun hx => h2 (And.intro hx.2 hx.1))]
  · rw [if_neg h]
    conv_rhs => rw [if_neg (fun hx => h (And.intro hx.2 hx.1))]

lemma studioFactor_comm (a b : Anime) (hA : a.studios.Nodup) (hB : b.studios.Nodup) :
    studioFactor a b = studioFactor b a := by
  simp only [studioFactor]
  by_cases h : a.studios ≠ [] ∧ b.studios ≠ []
  · rw [if_pos h, if_pos ⟨h.2, h.1⟩, jaccard_comm _ _ hA hB]
  · rw [if_neg h, if_neg (fun hx => h ⟨hx.2, hx.1⟩)]

lemma staffFactor_comm (a b : Anime) (hA : a.staff.Nodup) (hB : b.staff.Nodup) :
    staffFactor a b = staffFactor b a := by
  simp only [staffFactor]
  by_cases h : a.staff ≠ [] ∧ b.staff ≠ []
  · rw [if_pos h, if_pos ⟨h.2, h.1⟩, jaccard_comm _ _ hA hB]
  · rw [if_neg h, if_neg (fun hx => h ⟨hx.2, hx.1⟩)]

lemma formatFactor_comm (a b : Anime) : formatFactor a b = formatFactor b a := by
  unfold formatFactor
  rcases a.format with _ | fa <;> rcases b.format with _ | fb <;> dsimp only
  exact if_congr ⟨fun h => ⟨h.2.1, h.1, h.2.2.symm⟩, fun h => ⟨h.2.1, h.1, h.2.2.symm⟩⟩ rfl rfl

lemma seasonFactor_comm (a b : Anime) : seasonFactor a b = seasonFactor b a := by
  unfold seasonFactor
  rcases a.seasonYear with _ | ya <;> rcases b.seasonYear with _ | yb <;> dsimp only
  rw [abs_sub_comm]

lemma relationFactor_congr (a b : Anime)
    (hrel : b.id ∈ a.relations ↔ a.id ∈ b.relations) :
    relationFactor a b = relationFactor b a := by
  unfold relationFactor
  exact if_congr hrel rfl rfl

lemma computeAnimeSimilarity_comm (a b : Anime)
    (ha : NodupAttrs a) (hb : NodupAttrs b)
    (hrel : b.id ∈ a.relations ↔ a.id ∈ b.relations) :
    computeAnimeSimilarity a b = computeAnimeSimilarity b a := by
  simp only [computeAnimeSimilarity]
  rw [genreFactor_comm a b ha.1 hb.1, tagFactor_comm a b,
    studioFactor_comm a b ha.2.2.1 hb.2.2.1, staffFactor_comm a b ha.2.2.2 hb.2.2.2,
    formatFactor_comm a b, seasonFactor_comm a b, relationFactor_congr a b hrel]

lemma weight_le_one_of_mem (l : List Anime) (θ : ℚ) (hl : ∀ x ∈ l, NodupAttrs x) :
    ∀ e ∈ computeSimilarities l θ, e.weight ≤ 1 := by
  induction l with
  | nil =>
    intro e he
    simp [computeSimilarities] at he
  | cons a rest ih =>
    intro e he
    simp only [computeSimilarities, List.mem_append] at he
    rcases he with he | he
    · rcases List.mem_filterMap.mp he with ⟨b, hb, hfb⟩
      by_cases hc : θ ≤ computeAnimeSimilarity a b
      · rw [if_pos hc] at hfb
        cases Option.some.inj hfb
        exact computeAnimeSimilarity_le_one a b (hl a (by simp))
          (hl b (List.mem_cons_of_mem _ hb))
      · rw [if_neg hc] at hfb
        cases hfb
    · exact ih (fun x hx => hl x (List.mem_cons_of_mem _ hx)) e he

lemma filterMap_sublist_of_imp {β γ : Type} (f g : β → Option γ)
    (hfg : ∀ b e, f b = some e → g b = some e) :
    ∀ l : List β, (l.filterMap f).Sublist (l.filterMap g) := by
  intro l
  induction l with
  | nil => simp
  | cons b rest ih =>
    rw [List.filterMap_cons, List.filterMap_cons]
    cases hf : f b with
    | none =>
      cases hg : g b with
      | none => exact ih
      | some e => exact ih.cons e
    | some e =>
      rw [hfg b e hf]
      exact ih.cons₂ e

lemma computeSimilarities_sublist (l : List Anime) (minSim minSim' : ℚ)
    (h : minSim ≤ minSim') :
    (computeSimilarities l minSim').Sublist (computeSimilarities l minSim) := by
  induction l with
  | nil => simp [computeSimilarities]
  | cons a rest ih =>
    simp only [computeSimilarities]
    apply List.Sublist.append _ ih
    apply filterMap_sublist_of_imp
    intro b e hfb
    by_cases hc : minSim' ≤ computeAnimeSimilarity a b
    · rw [if_pos hc] at hfb
      rw [if_pos (le_trans h hc)]
      exact hfb
    · rw [if_neg hc] at hfb
      cases hfb

/-! ## Helper lemmas about label propagation -/

lemma foldl_best_stable (l : List (ℤ × ℚ)) (p : ℤ × ℚ)
    (h : ∀ e ∈ l, e.2 ≤ p.2) :
    l.foldl (fun best e => if best.2 < e.2 then e else best) p = p := by
  induction l generalizing p with
  | nil => rfl
  | cons e rest ih =>
    rw [List.foldl_cons]
    rw [if_neg (not_lt.mpr (h e (by simp)))]
    exact ih p (fun x hx => h x (by simp [hx]))

lemma foldl_best_snd_lt (l : List (ℤ × ℚ)) (p : ℤ × ℚ) (w : ℚ) (hp : p.2 < w)
    (h : ∀ e ∈ l, e.2 < w) :
    (l.foldl (fun best e => if best.2 < e.2 then e else best) p).2 < w := by
  induction l generalizing p with
  | nil => exact hp
  | cons e rest ih =>
    rw [List.foldl_cons]
    by_cases hc : p.2 < e.2
    · rw [if_pos hc]
      exact ih e (h e (by simp)) (fun x hx => h x (by simp [hx]))
    · rw [if_neg hc]
      exact ih p hp (fun x hx => h x (by simp [hx]))

lemma pickBest_of_nonpos (cur : ℤ) (entries : List (ℤ × ℚ))
    (h : ∀ e ∈ entries, e.2 ≤ 0) : pickBest cur entries = cur := by
  unfold pickBest
  rw [foldl_best_stable entries (cur, 0) h]

lemma pickBest_first_max (cur : ℤ) (pre : List (ℤ × ℚ)) (c : ℤ) (w : ℚ)
    (post : List (ℤ × ℚ)) (hw : 0 < w)
    (hpre : ∀ e ∈ pre, e.2 < w) (hpost : ∀ e ∈ post, e.2 ≤ w) :
    pickBest cur (pre ++ (c, w) :: post) = c := by
  unfold pickBest
  rw [List.foldl_append, List.foldl_cons]
  rw [if_pos (foldl_best_snd_lt pre (cur, 0) w hw hpre)]
  rw [foldl_best_stable post (c, w) hpost]

lemma lpPass_cons (adj : ℤ → List (ℤ × ℚ)) (n : ℤ) (rest : List ℤ)
    (labels : ℤ → ℤ) (changed : Bool) :
    lpPass adj (n :: rest) labels changed =
      if adj n = [] then lpPass adj rest labels changed
      else if pickBest (labels n) (communityWeights labels (adj n)) = labels n
        then lpPass adj rest labels changed
        else lpPass adj rest
          (fun m => if m = n
            then pickBest (labels n) (communityWeights labels (adj n))
            else labels m) true := rfl

lemma lpPass_stays_true (adj : ℤ → List (ℤ × ℚ)) :
    ∀ (nodes : List ℤ) (labels : ℤ → ℤ), (lpPass adj nodes labels true).2 = true := by
  intro nodes
  induction nodes with
  | nil => intro labels; rfl
  | cons n rest ih =>
    intro labels
    rw [lpPass_cons]
    by_cases h1 : adj n = []
    · rw [if_pos h1]; exact ih labels
    · rw [if_neg h1]
      by_cases h2 : pickBest (labels n) (communityWeights labels (adj n)) = labels n
      · rw [if_pos h2]; exact ih labels
      · rw [if_neg h2]; exact ih _

lemma lpPass_no_change (adj : ℤ → List (ℤ × ℚ)) :
    ∀ (nodes : List ℤ) (labels : ℤ → ℤ),
      (lpPass adj nodes labels false).2 = false →
      (lpPass adj nodes labels false).1 = labels := by
  intro nodes
  induction nodes with
  | nil => intro labels _; rfl
  | cons n rest ih =>
    intro labels h
    rw [lpPass_cons] at h ⊢
    by_cases h1 : adj n = []
    · rw [if_pos h1] at h ⊢; exact ih labels h
    · rw [if_neg h1] at h ⊢
      by_cases h2 : pickBest (labels n) (communityWeights labels (adj n)) = labels n
      · rw [if_pos h2] at h ⊢; exact ih labels h
      · rw [if_neg h2] at h
        exact absurd h (by rw [lpPass_stays_true]; simp)

lemma lpLoop_stop (adj : ℤ → List (ℤ × ℚ)) (nodes : List ℤ) (fuel : ℕ)
    (labels : ℤ → ℤ) (h : (lpPass adj nodes labels false).2 = false) :
    lpLoop adj nodes (fuel + 1) labels = (lpPass adj nodes labels false).1 := by
  simp only [lpLoop, h]
  rfl

/-! ## Concrete items used by counterexamples and witnesses -/

/-- A minimal title record. -/
def exTitle : Title := { romaji := some "X", english := none, native := none }

/-- Item that lists item 2 as a relation; item 2 does not list it back. -/
def itemA1 : Anime :=
  { id := 1, title := exTitle, genres := ["Action", "Drama"], tags := [],
    studios := [], staff := [], format := none, seasonYear := none,
    relations := [2], popularity := 0, averageScore := none }

/-- Item related-to by `itemA1` but listing no relations itself. -/
def itemB1 : Anime :=
  { id := 2, title := exTitle, genres := ["Action"], tags := [],
    studios := [], staff := [], format := none, seasonYear := none,
    relations := [], popularity := 0, averageScore := none }

/-- Witness item with a mutual relation to `itemW2`. -/
def itemW1 : Anime :=
  { id := 10, title := exTitle, genres := ["Action", "Drama"], tags := [],
    studios := [], staff := [], format := none, seasonYear := none,
    relations := [20], popularity := 0, averageScore := none }

/-- Witness item with a mutual relation to `itemW1`. -/
def itemW2 : Anime :=
  { id := 20, title := exTitle, genres := ["Action"], tags := [],
    studios := [], staff := [], format := none, seasonYear := none,
    relations := [10], popularity := 0, averageScore := none }

/-- Item aired in 2000 (shares its genre with `itemY2010`). -/
def itemY2000 : Anime :=
  { id := 1, title := exTitle, genres := ["Action"], tags := [],
    studios := [], staff := [], format := none, seasonYear := some 2000,
    relations := [], popularity := 0, averageScore := none }

/-- Item aired in 2010. -/
def itemY2010 : Anime :=
  { id := 2, title := exTitle, genres := ["Action"], tags := [],
    studios := [], staff := [], format := none, seasonYear := some 2010,
    relations := [], popularity := 0, averageScore := none }

/-! ## Claim C1 -/

/-- C1 counterexample: metadata-mode similarity is NOT symmetric when
exactly one item lists the other in its related-item id set.  `itemA1`
lists `itemB1` (genre Jaccard 1/2, relation factor applicable one way):
score(A,B) = (0.5·3 + 1·2)/(3 + 2) = 0.7 but score(B,A) = (0.5·3)/3 = 0.5. -/
theorem c1_counterexample :
    itemB1.id ∈ itemA1.relations ∧ itemA1.id ∉ itemB1.relations ∧
    computeAnimeSimilarity itemA1 itemB1 = 7/10 ∧
    computeAnimeSimilarity itemB1 itemA1 = 1/2 ∧
    computeAnimeSimilarity itemA1 itemB1 ≠ computeAnimeSimilarity itemB1 itemA1 := by
  refine ⟨by decide, by decide, ?_, ?_, ?_⟩
  · simp +decide [computeAnimeSimilarity, genreFactor, tagFactor, studioFactor,
      staffFactor, formatFactor, seasonFactor, relationFactor, jaccardSimilarity,
      itemA1, itemB1] <;> norm_num
  · simp +decide [computeAnimeSimilarity, genreFactor, tagFactor, studioFactor,
      staffFactor, formatFactor, seasonFactor, relationFactor, jaccardSimilarity,
      itemA1, itemB1] <;> norm_num
  · intro h
    rw [show computeAnimeSimilarity itemA1 itemB1 = 7/10 by
        simp +decide [computeAnimeSimilarity, genreFactor, tagFactor, studioFactor,
          staffFactor, formatFactor, seasonFactor, relationFactor, jaccardSimilarity,
          itemA1, itemB1] <;> norm_num,
      show computeAnimeSimilarity itemB1 itemA1 = 1/2 by
        simp +decide [computeAnimeSimilarity, genreFactor, tagFactor, studioFactor,
          staffFactor, formatFactor, seasonFactor, relationFactor, jaccardSimilarity,
          itemA1, itemB1] <;> norm_num] at h
    norm_num at h

/-- C1 (amended): metadata-mode similarity is symmetric for every pair of
items whose genre, studio and staff collections are duplicate-free and
whose direct-relation membership is mutual (A lists B exactly when B lists
A); when exactly one item lists the other the scores can differ, as the
counterexample shows. -/
theorem c1_similarity_symmetric (a b : Anime) (ha : NodupAttrs a)
    (hb : NodupAttrs b)
    (hrel : b.id ∈ a.relations ↔ a.id ∈ b.relations) :
    computeAnimeSimilarity a b = computeAnimeSimilarity b a :=
  computeAnimeSimilarity_comm a b ha hb hrel

/-- C1 witness: the amended symmetry theorem applied to the concrete
mutually-related pair `itemW1`, `itemW2`. -/
theorem c1_similarity_symmetric_witness :
    (NodupAttrs itemW1 ∧ NodupAttrs itemW2 ∧
      (itemW2.id ∈ itemW1.relations ↔ itemW1.id ∈ itemW2.relations)) ∧
    computeAnimeSimilarity itemW1 itemW2 = computeAnimeSimilarity itemW2 itemW1 :=
  ⟨⟨by decide, by decide, by decide⟩,
    c1_similarity_symmetric itemW1 itemW2 (by decide) (by decide) (by decide)⟩

/-! ## Claim C2 -/

/-- C2: in metadata mode, for items whose attribute collections are
duplicate-free sets the similarity score never exceeds 1.0, and hence
every edge emitted by the pair loop carries weight at most 1.0. -/
theorem c2_weight_le_one (l : List Anime) (minSim : ℚ) (a b : Anime)
    (hl : ∀ x ∈ l, NodupAttrs x) (ha : NodupAttrs a) (hb : NodupAttrs b) :
    computeAnimeSimilarity a b ≤ 1 ∧
    ∀ e ∈ computeSimilarities l minSim, e.weight ≤ 1 :=
  ⟨computeAnimeSimilarity_le_one a b ha hb, weight_le_one_of_mem l minSim hl⟩

/-- C2 witness: the bound applied to the concrete pair `itemW1`, `itemW2`
and the two-item list at threshold 0.25. -/
theorem c2_weight_le_one_witness :
    ((∀ x ∈ [itemW1, itemW2], NodupAttrs x) ∧ NodupAttrs itemW1 ∧ NodupAttrs itemW2) ∧
    (computeAnimeSimilarity itemW1 itemW2 ≤ 1 ∧
      ∀ e ∈ computeSimilarities [itemW1, itemW2] (1/4), e.weight ≤ 1) :=
  ⟨⟨by decide, by decide, by decide⟩,
    c2_weight_le_one [itemW1, itemW2] (1/4) itemW1 itemW2 (by decide) (by decide) (by decide)⟩

/-! ## Claim C7 -/

/-- C7 counterexample: both items carry a seasonYear (2000 and 2010, ten
years apart) and share their single genre, yet the score is 1: the code
drops BOTH the season factor and its weight 0.3 once the year difference
exceeds 2, whereas the claim's always-included weight would force the
score (1·3 + 0·0.3)/(3 + 0.3) = 10/11 < 1 for this pair. -/
theorem c7_counterexample :
    itemY2000.seasonYear = some 2000 ∧ itemY2010.seasonYear = some 2010 ∧
    computeAnimeSimilarity itemY2000 itemY2010 = 1 ∧
    computeAnimeSimilarity itemY2000 itemY2010 ≠ (1 * 3 + 0 * (3/10)) / (3 + 3/10) := by
  refine ⟨rfl, rfl, ?_, ?_⟩
  · simp +decide [computeAnimeSimilarity, genreFactor, tagFactor, studioFactor,
      staffFactor, formatFactor, seasonFactor, relationFactor, jaccardSimilarity,
      itemY2000, itemY2010] <;> norm_num
  · rw [show computeAnimeSimilarity itemY2000 itemY2010 = 1 by
      simp +decide [computeAnimeSimilarity, genreFactor, tagFactor, studioFactor,
        staffFactor, formatFactor, seasonFactor, relationFactor, jaccardSimilarity,
        itemY2000, itemY2010] <;> norm_num]
    norm_num

/-- C7 (amended): when both items carry a seasonYear the season factor and
its weight 0.3 enter numerator and denominator only for a year difference
of at most 2, with value (3 − diff)/3; for a difference of 3 or more the
factor AND its weight are dropped, exactly as when a seasonYear is absent. -/
theorem c7_season_window (a b : Anime) :
    (∀ ya yb, a.seasonYear = some ya → b.seasonYear = some yb →
      (|ya - yb| ≤ 2 →
        seasonFactor a b = ((((3 - |ya - yb| : ℤ)) : ℚ) / 3 * (3/10), 3/10)) ∧
      (2 < |ya - yb| → seasonFactor a b = (0, 0))) ∧
    ((a.seasonYear = none ∨ b.seasonYear = none) → seasonFactor a b = (0, 0)) := by
  constructor
  · intro ya yb hya hyb
    constructor
    · intro hle
      simp only [seasonFactor, hya, hyb]
      rw [if_pos hle]
    · intro hgt
      simp only [seasonFactor, hya, hyb]
      rw [if_neg (not_le.mpr hgt)]
  · intro h
    rcases h with h | h
    · simp [seasonFactor, h]
    · rcases ha : a.seasonYear with _ | ya <;> simp [seasonFactor, h, ha]

/-- C7 witness: the amended window rule applied to the concrete pair ten
years apart, whose season factor contributes nothing to either sum. -/
theorem c7_season_window_witness :
    (itemY2000.seasonYear = some 2000 ∧ itemY2010.seasonYear = some 2010 ∧
      2 < |(2000 : ℤ) - 2010|) ∧
    seasonFactor itemY2000 itemY2010 = (0, 0) :=
  ⟨⟨rfl, rfl, by decide⟩,
    ((c7_season_window itemY2000 itemY2010).1 2000 2010 rfl rfl).2 (by decide)⟩

/-! ## Claim C8 -/

/-- C8: for a fixed item set, every edge emitted at a higher threshold is
also emitted at any lower threshold, and raising the threshold never
increases the edge count. -/
theorem c8_threshold_monotone (l : List Anime) (minSim minSim' : ℚ)
    (h : minSim ≤ minSim') :
    (∀ e ∈ computeSimilarities l minSim', e ∈ computeSimilarities l minSim) ∧
    (computeSimilarities l minSim').length ≤ (computeSimilarities l minSim).length :=
  ⟨fun _ he => (computeSimilarities_sublist l minSim minSim' h).subset he,
   (computeSimilarities_sublist l minSim minSim' h).length_le⟩

/-- C8 witness: thresholds 0.25 ≤ 0.5 on the concrete two-item list. -/
theorem c8_threshold_monotone_witness :
    ((1 : ℚ)/4 ≤ 1/2) ∧
    ((∀ e ∈ computeSimilarities [itemW1, itemW2] (1/2),
        e ∈ computeSimilarities [itemW1, itemW2] (1/4)) ∧
      (computeSimilarities [itemW1, itemW2] (1/2)).length ≤
        (computeSimilarities [itemW1, itemW2] (1/4)).length) :=
  ⟨by norm_num, c8_threshold_monotone [itemW1, itemW2] (1/4) (1/2) (by norm_num)⟩

/-! ## Claim C9 -/

lemma noSpoilers_idem (t : List Tag) : noSpoilers (noSpoilers t) = noSpoilers t := by
  unfold noSpoilers
  induction t with
  | nil => rfl
  | cons x xs ih =>
    cases hx : x.isMediaSpoiler <;> simp [List.filter_cons, hx, ih]

lemma tagFactor_zero_of_left_spoilers (a b : Anime) (h : noSpoilers a.tags = []) :
    tagFactor a b = (0, 0) := by
  simp only [tagFactor]
  split
  · rw [if_neg (fun hx => hx.1 h)]
  · rfl

lemma tagFactor_zero_of_right_spoilers (a b : Anime) (h : noSpoilers b.tags = []) :
    tagFactor a b = (0, 0) := by
  simp only [tagFactor]
  split
  · rw [if_neg (fun hx => hx.2 h)]
  · rfl

/-- C9: the tag factor ignores spoiler-marked tags on either item — it is
unchanged when each item's tag list is pre-filtered to its non-spoiler tags
— and when all of either item's tags are spoiler-marked the factor and its
weight 2.5 are dropped exactly as if that item had no tags at all. -/
theorem c9_spoiler_tags_ignored (a b : Anime) :
    tagFactor a b =
      tagFactor { a with tags := noSpoilers a.tags } { b with tags := noSpoilers b.tags } ∧
    (noSpoilers a.tags = [] → tagFactor a b = tagFactor { a with tags := [] } b) ∧
    (noSpoilers b.tags = [] → tagFactor a b = tagFactor a { b with tags := [] }) := by
  refine ⟨?_, ?_, ?_⟩
  · by_cases hA : noSpoilers a.tags = []
    · rw [tagFactor_zero_of_left_spoilers a b hA]
      rw [tagFactor_zero_of_left_spoilers _ _ (by simpa [noSpoilers_idem] using hA)]
    · by_cases hB : noSpoilers b.tags = []
      · rw [tagFactor_zero_of_right_spoilers a b hB]
        rw [tagFactor_zero_of_right_spoilers _ _ (by simpa [noSpoilers_idem] using hB)]
      · have haT : a.tags ≠ [] := by
          intro hc
          exact hA (by simp [noSpoilers, hc])
        have hbT : b.tags ≠ [] := by
          intro hc
          exact hB (by simp [noSpoilers, hc])
        simp only [tagFactor]
        rw [if_pos ⟨haT, hbT⟩, if_pos ⟨hA, hB⟩]
        conv_rhs => rw [if_pos (And.intro hA hB)]
        rw [noSpoilers_idem, noSpoilers_idem]
        rw [if_pos (And.intro hA hB)]
  · intro h
    rw [tagFactor_zero_of_left_spoilers a b h,
      tagFactor_zero_of_left_spoilers _ _ (by simp [noSpoilers])]
  · intro h
    rw [tagFactor_zero_of_right_spoilers a b h,
      tagFactor_zero_of_right_spoilers _ _ (by simp [noSpoilers])]

/-- Item whose only tag is spoiler-marked. -/
def itemSpoiler : Anime :=
  { id := 3, title := exTitle, genres := ["Action"],
    tags := [{ name := "Gore", rank := 80, isMediaSpoiler := true }],
    studios := [], staff := [], format := none, seasonYear := none,
    relations := [], popularity := 0, averageScore := none }

/-- Item with one ordinary (non-spoiler) tag. -/
def itemTagged : Anime :=
  { id := 4, title := exTitle, genres := ["Action"],
    tags := [{ name := "Gore", rank := 80, isMediaSpoiler := false }],
    studios := [], staff := [], format := none, seasonYear := none,
    relations := [], popularity := 0, averageScore := none }

/-- C9 witness: the all-spoiler item behaves exactly like a tagless item. -/
theorem c9_spoiler_tags_ignored_witness :
    (noSpoilers itemSpoiler.tags = []) ∧
    tagFactor itemSpoiler itemTagged = tagFactor { itemSpoiler with tags := [] } itemTagged :=
  ⟨by decide, (c9_spoiler_tags_ignored itemSpoiler itemTagged).2.1 (by decide)⟩

/-! ## Claim C5 -/

lemma find?_prefix_miss {α : Type} (p : α → Bool) :
    ∀ (pre : List α) (g : α) (post : List α),
      (∀ x ∈ pre, p x = false) → p g = true →
      (pre ++ g :: post).find? p = some g := by
  intro pre
  induction pre with
  | nil =>
    intro g post _ hg
    simp [List.find?_cons_of_pos, hg]
  | cons x xs ih =>
    intro g post hmiss hg
    rw [List.cons_append, List.find?_cons_of_neg]
    · exact ih g post (fun y hy => hmiss y (by simp [hy])) hg
    · simp [hmiss x (by simp)]

/-- C5 counterexample: for an item whose own genre list is
["Drama", "Action"], the code assigns the community of Drama (id 3), the
FIRST genre in the ITEM's order that is primary — not the community of
Action (id 0), the first genre in the PRIORITY-list order the item
possesses, which the claim prescribes. -/
theorem c5_counterexample :
    assignCommunity ["Drama", "Action"] = 3 ∧
    assignCommunityPriorityOrder ["Drama", "Action"] = 0 ∧
    assignCommunity ["Drama", "Action"] ≠
      assignCommunityPriorityOrder ["Drama", "Action"] := by
  refine ⟨by decide, by decide, by decide⟩

/-- C5 (amended): the genre-assignment community of an item is the index in
the priority list of the first genre IN THE ITEM'S OWN ORDER that occurs in
the priority list; an item none of whose genres is primary (in particular
one with no genres) gets the default "Other" community — and the
assignment is a pure function of the genre list. -/
theorem c5_first_genre_in_item_order (gs : List String) :
    (assignCommunity gs = defaultCommunityId ↔ ∀ g ∈ gs, g ∉ primaryGenres) ∧
    (∀ pre g post, gs = pre ++ g :: post →
      (∀ x ∈ pre, x ∉ primaryGenres) → g ∈ primaryGenres →
      assignCommunity gs = primaryGenres.indexOf g) := by
  constructor
  · constructor
    · intro hassign
      cases hf : gs.find? (fun x => decide (x ∈ primaryGenres)) with
      | none =>
        intro g hg
        have := List.find?_eq_none.mp hf g hg
        simpa using this
      | some g' =>
        exfalso
        have hmem : g' ∈ primaryGenres := by
          have := List.find?_some hf
          simpa using this
        have hlt : primaryGenres.indexOf g' < primaryGenres.length :=
          List.indexOf_lt_length.mpr hmem
        have heq : assignCommunity gs = primaryGenres.indexOf g' := by
          simp [assignCommunity, hf]
        rw [heq] at hassign
        unfold defaultCommunityId at hassign
        omega
    · intro hall
      have hf : gs.find? (fun x => decide (x ∈ primaryGenres)) = none :=
        List.find?_eq_none.mpr (fun x hx => by simpa using hall x hx)
      simp [assignCommunity, hf]
  · intro pre g post hsplit hpre hg
    have hf : gs.find? (fun x => decide (x ∈ primaryGenres)) = some g := by
      rw [hsplit]
      exact find?_prefix_miss _ pre g post
        (fun x hx => by simpa using hpre x hx) (by simpa using hg)
    simp [assignCommunity, hf]

/-- C5 witness: the amended characterization applied to a concrete
genre list with a non-primary genre before a primary one. -/
theorem c5_first_genre_in_item_order_witness :
    ((∀ x ∈ (["Josei"] : List String), x ∉ primaryGenres) ∧ "Drama" ∈ primaryGenres) ∧
    assignCommunity ["Josei", "Drama", "Action"] = primaryGenres.indexOf "Drama" :=
  ⟨⟨by decide, by decide⟩,
    (c5_first_genre_in_item_order ["Josei", "Drama", "Action"]).2
      ["Josei"] "Drama" ["Action"] rfl (by decide) (by decide)⟩

/-! ## Claim C6 -/

/-- The label-propagation example graph: a path 1 – 2 – 3, edge (2,3)
inserted before edge (1,2), both with weight 1. -/
def lpEdgesEx : List LPEdge :=
  [{ source := 2, target := 3, weight := 1 }, { source := 1, target := 2, weight := 1 }]

/-- C6 counterexample: in the first pass over nodes [1, 2, 3] (labels start
as the identity; node 1 has just adopted label 2), node 2's community
weights are [(3, 1), (2, 1)] — a TIE at weight 1 between label 3 and node
2's own current label 2 — yet the scan selects the first-encountered
community 3 and the pass relabels node 2 to 3, whereas the claim says a tie
with the current label keeps the current label. -/
theorem c6_counterexample :
    communityWeights (fun m => if m = 1 then 2 else m) (adjEntries 2 lpEdgesEx) =
      [(3, 1), (2, 1)] ∧
    pickBest 2 [(3, 1), (2, 1)] = 3 ∧
    ((lpPass (fun n => adjEntries n lpEdgesEx) [1, 2, 3] (fun n => n) false).1) 2 = 3 := by
  refine ⟨by decide, by decide, by decide⟩

/-- C6 (amended): the per-item update selects the FIRST community (in the
insertion order of the neighbour-weight map) whose total strictly exceeds
every earlier total and is positive — i.e. the first community attaining
the maximum total; a tie is therefore resolved in favour of the
first-encountered community, not the item's current label, and the item
keeps its current label only when no total is positive or its current
label attains the maximum first.  The loop stops after the first pass with
no change, which also leaves the labels unchanged (the 10-pass budget is
the fuel of `lpLoop` in `labelPropagation`). -/
theorem c6_label_propagation_update (cur : ℤ) (entries : List (ℤ × ℚ))
    (adj : ℤ → List (ℤ × ℚ)) (nodes : List ℤ) (labels : ℤ → ℤ) (fuel : ℕ) :
    ((∀ e ∈ entries, e.2 ≤ 0) → pickBest cur entries = cur) ∧
    (∀ pre c w post, entries = pre ++ (c, w) :: post → 0 < w →
      (∀ e ∈ pre, e.2 < w) → (∀ e ∈ post, e.2 ≤ w) →
      pickBest cur entries = c) ∧
    ((lpPass adj nodes labels false).2 = false →
      lpLoop adj nodes (fuel + 1) labels = (lpPass adj nodes labels false).1 ∧
      (lpPass adj nodes labels false).1 = labels) := by
  refine ⟨pickBest_of_nonpos cur entries, ?_, ?_⟩
  · intro pre c w post hsplit hw hpre hpost
    rw [hsplit]
    exact pickBest_first_max cur pre c w post hw hpre hpost
  · intro h
    exact ⟨lpLoop_stop adj nodes fuel labels h, lpPass_no_change adj nodes labels h⟩

/-- C6 witness: the first-max rule applied to the concrete tied entry list
[(7, 2), (5, 2)] with current label 5: the first community 7 wins the tie. -/
theorem c6_label_propagation_update_witness :
    ((0 : ℚ) < 2 ∧ (∀ e ∈ ([] : List (ℤ × ℚ)), e.2 < 2) ∧
      (∀ e ∈ [((5 : ℤ), (2 : ℚ))], e.2 ≤ 2)) ∧
    pickBest 5 [(7, 2), (5, 2)] = 7 :=
  ⟨⟨by norm_num, by simp, by decide⟩,
    (c6_label_propagation_update 5 [(7, 2), (5, 2)] (fun _ => []) [] (fun n => n) 0).2.1
      [] 7 2 [(5, 2)] rfl (by norm_num) (by simp) (by decide)⟩

/-! ## Claim C10 -/

/-- C10: in metadata mode `buildGraph` keeps only nodes whose id is an
endpoint of some edge, and the recommendation graph drops degree-0 nodes,
so every node of either emitted graph is the source or target of at least
one edge. -/
theorem c10_no_isolated_nodes (animeList : List Anime) (edges : List EdgeRec)
    (l : List RecAnime) :
    (∀ n ∈ (buildGraph animeList edges).1,
      ∃ e ∈ edges, e.source = n.id ∨ e.target = n.id) ∧
    (∀ m ∈ (buildRecommendationGraph l).1,
      ∃ e ∈ (buildRecommendationGraph l).2, e.source = m ∨ e.target = m) := by
  constructor
  · intro n hn
    simp only [buildGraph] at hn
    have h2 := (List.mem_filter.mp hn).2
    rw [List.any_eq_true] at h2
    obtain ⟨e, he, hp⟩ := h2
    exact ⟨e, he, by simpa using hp⟩
  · intro m hm
    simp only [buildRecommendationGraph] at hm
    have h2 := (List.mem_filter.mp hm).2
    rw [List.any_eq_true] at h2
    obtain ⟨e, he, hp⟩ := h2
    exact ⟨e, he, by simpa using hp⟩

/-- A concrete edge incident to `itemW1`. -/
def edgeEx : EdgeRec := { source := 10, target := 99, weight := 1 }

/-- C10 witness: the connected node of a one-item graph indeed has an
incident edge. -/
theorem c10_no_isolated_nodes_witness :
    (toGraphNode itemW1 ∈ (buildGraph [itemW1] [edgeEx]).1) ∧
    ∃ e ∈ [edgeEx],
      e.source = (toGraphNode itemW1).id ∨ e.target = (toGraphNode itemW1).id :=
  ⟨by decide,
    (c10_no_isolated_nodes [itemW1] [edgeEx] []).1 (toGraphNode itemW1) (by decide)⟩

/-! ## Claim C3 -/

/-- A final layout in which every node received the same x; the x-axis
bounding-box range is zero while the y-range is 2. -/
def degenerateNodes : List PositionedNode :=
  [{ id := 1, x := 5, y := 5, hue := 0 }, { id := 2, x := 5, y := 7, hue := 0 }]

/-- C3 (code bug): on a graph whose items all collapse to the same x, the
bounding-box x-range is 0 and the serializer computes
`Math.round(((x - minX) / 0) * 20000)` = `Math.round(0/0)` = NaN (`none`
here, emitted as `null` by JSON.stringify) for EVERY node's x — it does not
fall back to the integer 0 the claim (and the spec's error-handling
section) requires; the non-degenerate y-axis meanwhile stays inside
[0, 20000]. -/
theorem c3_zero_range_axis_nan :
    bbox degenerateNodes = some { minX := 5, maxX := 5, minY := 5, maxY := 7 } ∧
    serializeCoords degenerateNodes = [(none, some 0), (none, some 20000)] := by
  constructor
  · simp +decide [bbox, degenerateNodes] <;> norm_num
  · simp +decide [serializeCoords, bbox, degenerateNodes, serializeCoord, jsRound,
      worldScale] <;> norm_num

/-! ## Claim C4 -/

/-- The single tier-0 parent node used to exercise the subdivision step. -/
def parentNode : LayoutNode :=
  { id := 0, clusterId := 0, tier := 0, x := 0, y := 0, hue := 0 }

/-- C4 (code bug): `subdivideNodes` draws its jitter from the ambient
`Math.random()` generator, which takes no seed; modelling that generator
as an explicit stream, the very same inputs and configuration produce
different layouts under two different streams (draws all 0 versus all 1),
so the subdivision step is not a deterministic function of any explicit
seed and two runs need not be bit-identical. -/
theorem c4_jitter_unseeded :
    subdivideNodes (fun _ => 51) 0 [parentNode] (fun _ => 0) ≠
    subdivideNodes (fun _ => 51) 0 [parentNode] (fun _ => 1) := by
  have h0 : subdivideNodes (fun _ => 51) 0 [parentNode] (fun _ => 0) =
      [{ id := 0, clusterId := 0, tier := 0, x := -25, y := -25, hue := 0 },
       { id := 1, clusterId := 0, tier := 0, x := -25, y := -25, hue := 0 }] := by
    simp +decide [subdivideNodes, subdivideChildren, parentNode, List.range_succ] <;> norm_num
  have h1 : subdivideNodes (fun _ => 51) 0 [parentNode] (fun _ => 1) =
      [{ id := 0, clusterId := 0, tier := 0, x := 25, y := 25, hue := 0 },
       { id := 1, clusterId := 0, tier := 0, x := 25, y := 25, hue := 0 }] := by
    simp +decide [subdivideNodes, subdivideChildren, parentNode, List.range_succ] <;> norm_num
  rw [h0, h1]
  decide
